import Mathlib

/-!
Verification development for the quiz-solver service.

The definitions below are a shallow embedding of the program's core:
* `extractResult` embeds the result-extraction heuristic of
  `app/core/code_executor.py` (`_execute_sync`, lines 128-141);
* `submit_answer` embeds the submission client of
  `app/core/agent_loop.py` (lines 243-267);
* `agentLoopGo` embeds the per-attempt iteration engine
  (`run_quiz_agent`, lines 110-166);
* `interpretOutcome` embeds the submission-outcome interpretation
  (`run_quiz_agent`, lines 179-220);
* `runPass` / `runLoop` embed one pass and the whole `while` loop of
  `run_quiz_agent` (lines 38-232), with external effects (page extraction,
  the two LLM calls, code execution, the HTTP round-trip and clock reads)
  supplied by per-pass environments.
-/

namespace QuizSolver

/-! ### Python value model (code executor locals) -/

/-- A Python value as far as the executor's result heuristic observes it:
`is None` checks, callability, and ordinary data. -/
inductive PyVal where
  | pyNone
  | int (n : Int)
  | str (s : String)
  | bool (b : Bool)
  | callable (tag : String)
  deriving DecidableEq, Repr

/-- Python `callable(value)`. -/
def PyVal.isCallable : PyVal → Bool
  | .callable _ => true
  | _ => false

/-- `local_vars` after `exec`: a dict, i.e. an association list ordered by
first binding, keys unique. -/
abbrev Locals := List (String × PyVal)

/-- `var_name in local_vars` / `local_vars[var_name]`. -/
def lookupVar (vars : Locals) (k : String) : Option PyVal :=
  (vars.find? (fun p => p.1 = k)).map Prod.snd

/-- The priority list at code_executor.py line 130. -/
def priorityNames : List String := ["result", "answer", "output", "final_answer"]

/-- Lines 129-133: `result = None; for var_name in [...]: if var_name in
local_vars: result = local_vars[var_name]; break`. The loop stops at the
first name that is bound, whatever its value (including `None`). -/
def priorityResult (vars : Locals) : PyVal :=
  (priorityNames.findSome? (fun n => lookupVar vars n)).getD .pyNone

/-- Python `key.startswith('_')` for the one-character prefix: the name's
first character is `'_'` (false for the empty name). -/
def startsWithUnderscore (k : String) : Bool :=
  match k.data with
  | [] => false
  | c :: _ => c = '_'

/-- Lines 137-141: scan `reversed(list(local_vars.items()))` for the first
binding that is neither callable nor underscore-prefixed; `None` if there is
no such binding. -/
def lastBindingFallback (vars : Locals) : PyVal :=
  match vars.reverse.find? (fun p => !p.2.isCallable && !startsWithUnderscore p.1) with
  | some p => p.2
  | none => .pyNone

/-- Lines 128-141 of code_executor.py: the whole result-extraction
heuristic. Line 136 reads `if result is None and local_vars:`, so the
fallback runs whenever the priority scan produced `None` — both when no
priority name is bound and when the first bound one holds `None`. -/
def extractResult (vars : Locals) : PyVal :=
  let result := priorityResult vars
  if result = .pyNone ∧ vars ≠ [] then lastBindingFallback vars
  else result

/-- The claim's reading of the heuristic, written from the spec's words:
use the first bound priority name's value, and fall back to the last-bound
non-private non-callable local only when none of the priority names exists. -/
def extractResultClaim (vars : Locals) : PyVal :=
  match priorityNames.findSome? (fun n => lookupVar vars n) with
  | some v => v
  | none => lastBindingFallback vars

/-- The amended reading: the fallback runs whenever the priority scan
yields `None` — because no priority name is bound, or because the first
bound one holds `None` — and otherwise the first bound priority name's
value is the result. -/
def extractResultAmended (vars : Locals) : PyVal :=
  match priorityNames.findSome? (fun n => lookupVar vars n) with
  | some v => if v = .pyNone then lastBindingFallback vars else v
  | none => lastBindingFallback vars

/-- The dict returned by `execute_code` / `_execute_sync`. -/
structure ExecResult where
  success : Bool
  result : PyVal
  stdout : String
  stderr : String
  error : Option String
  deriving DecidableEq, Repr

/-- Lines 142-149 of code_executor.py: the success path of `_execute_sync`
(no exception escaped `exec`): `success` is `True`, `error` is `None`, the
result comes from the extraction heuristic. -/
def executeSyncOk (vars : Locals) (stdout stderr : String) : ExecResult :=
  { success := true
    result := extractResult vars
    stdout := stdout
    stderr := stderr
    error := none }

/-! ### Safety limits (agent_loop.py lines 17-20) -/

def MAX_TOTAL_ATTEMPTS : Nat := 30
def MAX_ATTEMPTS_PER_URL : Nat := 2

/-! ### Submission client (agent_loop.py lines 243-267) -/

/-- The JSON dict the quiz server answers with, as far as the orchestrator
reads it: `.get("correct")`, `.get("reason")`, `.get("url")`. -/
structure SubmissionResponse where
  correct : Bool
  reason : Option String
  url : Option String
  deriving DecidableEq, Repr

/-- Python truthiness of an optional string (`if next_url:`,
`if analysis.submission_link:`): an absent value and the empty string are
both falsy. -/
def truthyOpt : Option String → Option String
  | some s => if s = "" then none else some s
  | none => none

/-- Body of an HTTP response, once `raise_for_status` has passed:
`response.json()` either parses to the expected dict or raises. -/
inductive HttpBody where
  | parsed (resp : SubmissionResponse)
  | unparsable (msg : String)
  deriving DecidableEq, Repr

/-- One `client.post` round-trip: either the transport fails (connect
error, timeout, ...) or a response with some status code comes back. -/
inductive HttpOutcome where
  | connectionError (msg : String)
  | response (status : Nat) (body : HttpBody)
  deriving DecidableEq, Repr

/-- `httpx.Response.raise_for_status()` passes exactly on 2xx statuses. -/
def statusOk (status : Nat) : Bool := 200 ≤ status && status < 300

/-- agent_loop.py lines 260-267: `submit_answer`'s `try` block posts, calls
`raise_for_status`, and returns the parsed JSON; `except Exception` turns
any failure (transport error, bad status, unparsable body) into
`{"correct": False, "reason": str(e)}` — a dict with no `"url"` key.
The function is total: it never raises to its caller. -/
def submit_answer : HttpOutcome → SubmissionResponse
  | .connectionError msg => { correct := false, reason := some msg, url := none }
  | .response status body =>
    if statusOk status then
      match body with
      | .parsed resp => resp
      | .unparsable msg => { correct := false, reason := some msg, url := none }
    else
      { correct := false
        reason := some ("Client error status " ++ toString status)
        url := none }

/-! ### Per-URL attempt counts (`url_attempt_counts` dict) -/

abbrev CountMap := List (String × Nat)

/-- `url_attempt_counts.get(u, 0)`. -/
def getCount (m : CountMap) (u : String) : Nat :=
  ((m.find? (fun p => p.1 = u)).map Prod.snd).getD 0

/-- `url_attempt_counts[u] = n`. -/
def setCount (m : CountMap) (u : String) (n : Nat) : CountMap :=
  match m with
  | [] => [(u, n)]
  | (k, v) :: rest => if k = u then (k, n) :: rest else (k, v) :: setCount rest u n

/-! ### Interpreting a submission outcome (agent_loop.py lines 179-220) -/

/-- What the `try` block of one pass does to the `while` loop: `break`
(session stops) or fall through / `continue` with a (possibly updated)
`current_url`. -/
inductive BodyResult where
  | breakLoop
  | proceed (next_url : String)
  deriving DecidableEq, Repr

/-- agent_loop.py lines 179-220: how the orchestrator reacts to the
submission response. `current_attempt` re-reads
`url_attempt_counts.get(current_url, 0)` (line 201). Both `if next_url:`
checks are Python truthiness, embedded as `truthyOpt`. -/
def interpretOutcome (resp : SubmissionResponse) (current_url : String)
    (counts : CountMap) : BodyResult :=
  if resp.correct then
    -- lines 180-192
    match truthyOpt resp.url with
    | some next_url =>
      if next_url = current_url then .breakLoop else .proceed next_url
    | none => .breakLoop
  else
    -- lines 193-220
    let current_attempt := getCount counts current_url
    match truthyOpt resp.url with
    | some next_url =>
      if next_url ≠ current_url then .proceed next_url
      else if current_attempt < MAX_ATTEMPTS_PER_URL then .proceed current_url
      else .proceed next_url
    | none =>
      if current_attempt < MAX_ATTEMPTS_PER_URL then .proceed current_url
      else .breakLoop

/-! ### Answer iteration engine (agent_loop.py lines 110-166) -/

/-- The dict `call_agent_llm` resolves to: `"code"` (string or null) and
`"final_answer"` (any JSON value; null means absent, checked with
`is not None`). -/
structure AgentResponse where
  code : Option String
  final_answer : PyVal
  deriving DecidableEq, Repr

/-- The external effects one iteration of the agent loop observes:
the `datetime.now() >= deadline` comparison at line 118, the agent-LLM
call (which may raise: network failure, missing content), and the dict
`execute_code` returns for this iteration's code (`execute_code` itself
never raises — code_executor.py catches everything). -/
structure IterEnv where
  deadlineReached : Bool
  agent : Except String AgentResponse
  execResult : ExecResult
  deriving Repr

/-- Result of the `for iteration in range(1, max_iterations + 1)` loop:
either `call_agent_llm` raised (the exception leaves the `try` block of the
pass), or the loop ended with `answer` (`.pyNone` = Python `None` = no
answer) and the accumulated `execution_history`. -/
structure IterationRecord where
  iteration : Nat
  code : String
  result : ExecResult
  deriving DecidableEq, Repr

inductive AgentLoopResult where
  | raised (msg : String)
  | done (answer : PyVal) (history : List IterationRecord)
  deriving DecidableEq, Repr

/-- agent_loop.py lines 110-166: the body of
`for iteration in range(1, max_iterations + 1)`, embedded as structural
recursion over the list of remaining iteration numbers. Each iteration:
check the deadline, call the agent LLM, accept a non-null `final_answer`,
otherwise execute truthy code, append the record, accept a successful
non-null execution result, and continue on failure or on a null result. -/
def agentLoopGo (envs : Nat → IterEnv) :
    List Nat → List IterationRecord → AgentLoopResult
  | [], history => .done .pyNone history
  | iteration :: rest, history =>
    let env := envs iteration
    -- line 118: `if datetime.now() >= deadline: break`
    if env.deadlineReached then .done .pyNone history
    else
      match env.agent with
      | .error msg => .raised msg
      | .ok agent_response =>
        -- line 132: `if agent_response.get("final_answer") is not None`
        if agent_response.final_answer ≠ .pyNone then
          .done agent_response.final_answer history
        else
          -- line 138: `if agent_response.get("code"):` (truthiness)
          match truthyOpt agent_response.code with
          | some code =>
            let exec_result := env.execResult
            let history' := history ++ [⟨iteration, code, exec_result⟩]
            -- line 157: `if exec_result.get("success") and exec_result.get("result") is not None`
            if exec_result.success ∧ exec_result.result ≠ .pyNone then
              .done exec_result.result history'
            else
              agentLoopGo envs rest history'
          | none => .done .pyNone history

/-- The whole `for` loop: `range(1, max_iterations + 1)` is
`List.range' 1 max_iterations = [1, ..., max_iterations]`, empty initial
history (lines 111-114). -/
def agentLoop (envs : Nat → IterEnv) (max_iterations : Nat) : AgentLoopResult :=
  agentLoopGo envs (List.range' 1 max_iterations) []

def AgentLoopResult.isRaised : AgentLoopResult → Bool
  | .raised _ => true
  | .done _ _ => false

def AgentLoopResult.answer : AgentLoopResult → PyVal
  | .raised _ => .pyNone
  | .done a _ => a

def AgentLoopResult.history : AgentLoopResult → List IterationRecord
  | .raised _ => []
  | .done _ h => h

/-! ### One attempt body — the `try` block (agent_loop.py lines 62-232) -/

/-- The dict `extract_quiz_content` returns on success (extractor.py
lines 60-66). `extract_quiz_content` catches every exception internally
and returns `None` on failure, so the orchestrator sees `Option`, never an
exception. Only presence/absence affects control flow. -/
structure ExtractionContent where
  page_text : String
  links : List String
  tables : List String
  question : String
  deriving Repr

/-- The control-relevant slice of the `AnalyzerResult` schema
(llm/schema.py lines 22-38): the orchestrator's control flow reads only
`submission_link` (truthiness at line 169) — `question`, `task_type`,
`steps` are logged, `resources` only feed the best-effort downloads, which
never raise (fetcher.py catches everything) and never affect control. -/
structure Analysis where
  question : String
  submission_link : Option String
  task_type : String
  deriving Repr

/-- External effects of one pass's `try` block: the extraction result
(total, `Option`), the analyzer call (`call_analyzer_llm` raises
`RuntimeError` on transport/validation failure), the per-iteration agent
environments, and the submission round-trip. Downloads (fetcher.py) and
preprocessing (agent_loop.py lines 100-108, locally caught) cannot raise
and cannot affect control flow, so they need no oracle. -/
structure BodyEnv where
  extraction : Option ExtractionContent
  analysis : Except String Analysis
  iters : Nat → IterEnv
  submission : HttpOutcome

/-- agent_loop.py lines 62-232: one pass's `try` block together with its
`except Exception` handler. An exception raised inside the `try` block
(analyzer failure, agent-LLM failure) reaches line 228's handler, which
logs and `continue`s — embedded as `.proceed current_url`. `if not
extraction: break` (lines 67-69) stops the whole session. Lines 169 and
221-226: without an answer or without a truthy submission link the session
`break`s. -/
def bodyRun (env : BodyEnv) (current_url : String) (counts : CountMap)
    (max_iterations : Nat) : BodyResult :=
  match env.extraction with
  | none => .breakLoop
  | some _ =>
    match env.analysis with
    | .error _ => .proceed current_url
    | .ok analysis =>
      match agentLoop env.iters max_iterations with
      | .raised _ => .proceed current_url
      | .done answer _ =>
        if answer ≠ .pyNone ∧ (truthyOpt analysis.submission_link).isSome then
          interpretOutcome (submit_answer env.submission) current_url counts
        else .breakLoop

/-! ### The orchestrator loop (agent_loop.py lines 33-240) -/

/-- The orchestrator's mutable state (lines 33-36). -/
structure LoopState where
  current_url : String
  total_attempts : Nat
  url_attempt_counts : CountMap
  visited_urls : List String
  deriving Repr

/-- Line 33-36: initial state. -/
def initState (quiz_url : String) : LoopState :=
  { current_url := quiz_url
    total_attempts := 0
    url_attempt_counts := []
    visited_urls := [] }

/-- Which exit ended the loop (for stating which guard fired; the source
distinguishes these only by log messages). -/
inductive StopKind where
  | whileCond
  | globalLimit
  | perUrlLimit
  | deadlineLow
  | bodyBreak
  deriving DecidableEq, Repr

inductive PassResult where
  | stopped (why : StopKind) (st : LoopState)
  | next (st : LoopState)
  deriving Repr

/-- The two clock reads one pass makes (line 38's `datetime.now()` is
consumed by `runLoop`'s `while` condition; line 53's by the
`time_remaining` guard), plus the body's external effects. -/
structure PassEnv where
  nowAtTop : Nat
  nowAtCheck : Nat
  body : BodyEnv

/-- agent_loop.py lines 39-232: one pass of the `while` body.
Order is exactly the source's: bump `total_attempts`, global-limit check
(lines 39-44); bump `url_attempt_counts[current_url]`, per-URL check
(lines 47-50); `time_remaining < 10` check (lines 53-56, `time_remaining
< 10` iff `deadline < now + 10`); append to `visited_urls` (line 58); run
the `try` block. -/
def runPass (deadline max_iterations : Nat) (env : PassEnv) (st : LoopState) :
    PassResult :=
  let total := st.total_attempts + 1
  if MAX_TOTAL_ATTEMPTS < total then
    .stopped .globalLimit { st with total_attempts := total }
  else
    let newCount := getCount st.url_attempt_counts st.current_url + 1
    let counts := setCount st.url_attempt_counts st.current_url newCount
    if MAX_ATTEMPTS_PER_URL < newCount then
      .stopped .perUrlLimit
        { st with total_attempts := total, url_attempt_counts := counts }
    else if deadline < env.nowAtCheck + 10 then
      .stopped .deadlineLow
        { st with total_attempts := total, url_attempt_counts := counts }
    else
      let visited := st.visited_urls ++ [st.current_url]
      match bodyRun env.body st.current_url counts max_iterations with
      | .breakLoop =>
        .stopped .bodyBreak
          { st with total_attempts := total, url_attempt_counts := counts,
                    visited_urls := visited }
      | .proceed url' =>
        .next
          { current_url := url', total_attempts := total,
            url_attempt_counts := counts, visited_urls := visited }

/-- agent_loop.py line 38: `while current_url and datetime.now() <
deadline:` around `runPass`, with `fuel` bounding how many passes we are
willing to observe (`none` = the loop was still running after `fuel`
passes) and `k` numbering the passes so each can see its own environment. -/
def runLoop (deadline max_iterations : Nat) (envs : Nat → PassEnv) :
    Nat → Nat → LoopState → Option (StopKind × LoopState)
  | 0, _, _ => none
  | fuel + 1, k, st =>
    if st.current_url ≠ "" ∧ (envs k).nowAtTop < deadline then
      match runPass deadline max_iterations (envs k) st with
      | .stopped why st' => some (why, st')
      | .next st' => runLoop deadline max_iterations envs fuel (k + 1) st'
    else
      some (.whileCond, st)

/-- The state a pass result carries. -/
def passState : PassResult → LoopState
  | .stopped _ st => st
  | .next st => st

/-- The final state of a terminated run (falling back to the start state
when fuel ran out). -/
def loopFinal (deadline max_iterations : Nat) (envs : Nat → PassEnv)
    (fuel k : Nat) (st : LoopState) : LoopState :=
  ((runLoop deadline max_iterations envs fuel k st).map Prod.snd).getD st

/-- The stop kind of a terminated run. -/
def loopStop (deadline max_iterations : Nat) (envs : Nat → PassEnv)
    (fuel k : Nat) (st : LoopState) : Option StopKind :=
  (runLoop deadline max_iterations envs fuel k st).map Prod.fst

/-! ### Supporting lemmas -/

lemma findSome_lookup_ne_nil {vars : Locals} {v : PyVal}
    (h : priorityNames.findSome? (fun n => lookupVar vars n) = some v) :
    vars ≠ [] := by
  intro hv
  subst hv
  simp [priorityNames, lookupVar] at h

lemma lastBindingFallback_nil : lastBindingFallback [] = PyVal.pyNone := by
  simp [lastBindingFallback]

/-! ### C1 theorems -/

/-- C1, counterexample: with locals `{"result": None, "x": "hi"}` the
priority name `result` exists, yet `_execute_sync` still falls back to the
last non-callable binding and yields `"hi"`, while the claim's rule
("only when none of these names exists does it fall back") yields `None`.
The claim as stated is therefore false on the code. -/
theorem extract_result_fallback_counterexample :
    extractResult [("result", PyVal.pyNone), ("x", PyVal.str "hi")] = PyVal.str "hi" ∧
    extractResultClaim [("result", PyVal.pyNone), ("x", PyVal.str "hi")] = PyVal.pyNone ∧
    extractResult [("result", PyVal.pyNone), ("x", PyVal.str "hi")] ≠
      extractResultClaim [("result", PyVal.pyNone), ("x", PyVal.str "hi")] := by
  refine ⟨rfl, rfl, ?_⟩
  decide

/-- C1, amended: `_execute_sync` takes the value of the first bound name
among `result`, `answer`, `output`, `final_answer`; the last-bound
non-underscore non-callable fallback runs whenever that scan produced
`None` — both when none of the priority names is bound and when the first
bound one holds `None` — and when the fallback finds no candidate either,
the result is `None` while `success` is still `true`. -/
theorem extract_result_heuristic (vars : Locals) (out err : String) :
    extractResult vars = extractResultAmended vars ∧
    (executeSyncOk vars out err).success = true ∧
    (executeSyncOk vars out err).error = none ∧
    (executeSyncOk vars out err).result = extractResult vars := by
  refine ⟨?_, rfl, rfl, rfl⟩
  unfold extractResult extractResultAmended priorityResult
  cases h : priorityNames.findSome? (fun n => lookupVar vars n) with
  | none =>
    cases vars with
    | nil => simp [lastBindingFallback_nil]
    | cons p l => simp
  | some v =>
    have hne : vars ≠ [] := findSome_lookup_ne_nil h
    by_cases hv : v = PyVal.pyNone
    · subst hv
      simp [hne]
    · simp [hv, hne]

/-! ### C6 / C9 theorems -/

/-- C6: `submit_answer` is a total function of the single round-trip's
outcome — it never raises to the orchestrator — and every transport or
protocol failure (connection error, non-2xx status, unparsable body) is
normalized to an ordinary outcome with `correct = false` and a reason
string, while a parsed 2xx body is returned as-is. -/
theorem submit_answer_normalizes :
    (∀ msg, submit_answer (.connectionError msg) =
      { correct := false, reason := some msg, url := none }) ∧
    (∀ status body, statusOk status = false →
      (submit_answer (.response status body)).correct = false ∧
      (submit_answer (.response status body)).reason.isSome = true) ∧
    (∀ status msg, statusOk status = true →
      submit_answer (.response status (.unparsable msg)) =
        { correct := false, reason := some msg, url := none }) ∧
    (∀ status resp, statusOk status = true →
      submit_answer (.response status (.parsed resp)) = resp) := by
  refine ⟨fun msg => rfl, ?_, ?_, ?_⟩
  · intro status body h
    simp [submit_answer, h]
  · intro status msg h
    simp [submit_answer, h]
  · intro status resp h
    simp [submit_answer, h]

/-- Witness for `submit_answer_normalizes` at a concrete 503 response. -/
theorem submit_answer_normalizes_witness :
    (submit_answer (.response 503 (.parsed ⟨true, none, some "next"⟩))).correct = false ∧
    (submit_answer (.response 503 (.parsed ⟨true, none, some "next"⟩))).reason.isSome = true :=
  submit_answer_normalizes.2.1 503 (.parsed ⟨true, none, some "next"⟩) (by decide)

/-- C9: every failing round-trip produces an outcome whose `url` field is
absent (`submit_answer`'s failure dict has no `"url"` key), and on an
incorrect outcome without a next-location the orchestrator either retries
the same location (while its budget remains) or breaks — it never advances
to a different location. -/
theorem transport_failure_never_advances :
    (∀ msg, (submit_answer (.connectionError msg)).url = none) ∧
    (∀ status body, statusOk status = false →
      (submit_answer (.response status body)).url = none) ∧
    (∀ status msg, statusOk status = true →
      (submit_answer (.response status (.unparsable msg))).url = none) ∧
    (∀ resp current_url counts, resp.correct = false → resp.url = none →
      interpretOutcome resp current_url counts =
        (if getCount counts current_url < MAX_ATTEMPTS_PER_URL then
          .proceed current_url
        else .breakLoop)) := by
  refine ⟨fun msg => rfl, ?_, ?_, ?_⟩
  · intro status body h
    simp [submit_answer, h]
  · intro status msg h
    simp [submit_answer, h]
  · intro resp current_url counts hc hu
    simp [interpretOutcome, hc, hu, truthyOpt]

/-- Witness for `transport_failure_never_advances`: a connection-refused
outcome on a location with an exhausted budget breaks the loop. -/
theorem transport_failure_never_advances_witness :
    (submit_answer (.connectionError "connection refused")).url = none ∧
    interpretOutcome ⟨false, some "connection refused", none⟩ "u1" [("u1", 2)] =
      .breakLoop := by
  refine ⟨transport_failure_never_advances.1 "connection refused", ?_⟩
  have h := transport_failure_never_advances.2.2.2
    ⟨false, some "connection refused", none⟩ "u1" [("u1", 2)] rfl rfl
  simpa using h

/-! ### Count-map lemmas -/

lemma getCount_cons (k : String) (v : Nat) (rest : CountMap) (u : String) :
    getCount ((k, v) :: rest) u = if k = u then v else getCount rest u := by
  by_cases h : k = u
  · simp [getCount, List.find?, h]
  · simp [getCount, List.find?, h]

lemma getCount_setCount_self (m : CountMap) (u : String) (n : Nat) :
    getCount (setCount m u n) u = n := by
  induction m with
  | nil => simp [getCount, setCount, List.find?]
  | cons p rest ih =>
    obtain ⟨k, v⟩ := p
    by_cases hk : k = u
    · subst hk
      simp [setCount, getCount_cons]
    · simp [setCount, hk, getCount_cons, ih]

lemma getCount_setCount_ne (m : CountMap) (u w : String) (n : Nat)
    (h : w ≠ u) : getCount (setCount m u n) w = getCount m w := by
  induction m with
  | nil => simp [getCount, setCount, List.find?, Ne.symm h]
  | cons p rest ih =>
    obtain ⟨k, v⟩ := p
    by_cases hk : k = u
    · subst hk
      simp [setCount, getCount_cons, Ne.symm h]
    · simp [setCount, hk, getCount_cons, ih]

/-- Inversion for a proceeding pass: it performed exactly the two
top-of-pass counter increments, appended the current location to the
visited sequence, and passed both ceiling checks. -/
lemma runPass_next_inv {d m : Nat} {env : PassEnv} {st st' : LoopState}
    (h : runPass d m env st = .next st') :
    st'.url_attempt_counts = setCount st.url_attempt_counts st.current_url
        (getCount st.url_attempt_counts st.current_url + 1) ∧
    st'.total_attempts = st.total_attempts + 1 ∧
    st'.visited_urls = st.visited_urls ++ [st.current_url] ∧
    st.total_attempts + 1 ≤ MAX_TOTAL_ATTEMPTS ∧
    getCount st.url_attempt_counts st.current_url + 1 ≤ MAX_ATTEMPTS_PER_URL := by
  by_cases h1 : MAX_TOTAL_ATTEMPTS < st.total_attempts + 1
  · simp [runPass, h1] at h
  · by_cases h2 : MAX_ATTEMPTS_PER_URL < getCount st.url_attempt_counts st.current_url + 1
    · simp [runPass, h1, h2] at h
    · by_cases h3 : d < env.nowAtCheck + 10
      · simp [runPass, h1, h2, h3] at h
      · cases hb : bodyRun env.body st.current_url
            (setCount st.url_attempt_counts st.current_url
              (getCount st.url_attempt_counts st.current_url + 1)) m with
        | breakLoop => simp [runPass, h1, h2, h3, hb] at h
        | proceed url' =>
          simp [runPass, h1, h2, h3, hb] at h
          subst h
          exact ⟨rfl, rfl, rfl, by omega, by omega⟩

/-! ### C5 theorem -/

/-- C5: on `correct = true` the orchestrator stops when the next-location
is absent (Python-falsy: missing or empty), stops when it equals the
current location, and otherwise advances to it. Embeds agent_loop.py
lines 179-192. -/
theorem correct_outcome_policy (resp : SubmissionResponse)
    (current_url : String) (counts : CountMap) (h : resp.correct = true) :
    (truthyOpt resp.url = none →
      interpretOutcome resp current_url counts = .breakLoop) ∧
    (truthyOpt resp.url = some current_url →
      interpretOutcome resp current_url counts = .breakLoop) ∧
    (∀ next_url, truthyOpt resp.url = some next_url → next_url ≠ current_url →
      interpretOutcome resp current_url counts = .proceed next_url) := by
  refine ⟨?_, ?_, ?_⟩
  · intro hu
    simp [interpretOutcome, h, hu]
  · intro hu
    simp [interpretOutcome, h, hu]
  · intro next_url hu hne
    simp [interpretOutcome, h, hu, hne]

/-- Witness for `correct_outcome_policy`: a correct answer with the
server echoing the current location back stops the session. -/
theorem correct_outcome_policy_witness :
    interpretOutcome ⟨true, none, some "u1"⟩ "u1" [] = .breakLoop :=
  (correct_outcome_policy ⟨true, none, some "u1"⟩ "u1" [] rfl).2.1 (by decide)

/-! ### C4 theorem -/

/-- C4: on `correct = false` the orchestrator advances whenever a truthy
next-location differing from the current one is provided (regardless of
incorrectness); otherwise it retries the same location while its attempt
count is below the per-location ceiling; otherwise it advances to a
provided next-location and breaks when none is provided. Moreover a
proceeding pass adds exactly the one top-of-pass increment to the current
location's counter — the advance itself increments nothing further.
Embeds agent_loop.py lines 193-220 and the counter updates of lines 47. -/
theorem incorrect_outcome_policy (resp : SubmissionResponse)
    (current_url : String) (counts : CountMap) (h : resp.correct = false) :
    (∀ next_url, truthyOpt resp.url = some next_url → next_url ≠ current_url →
      interpretOutcome resp current_url counts = .proceed next_url) ∧
    (getCount counts current_url < MAX_ATTEMPTS_PER_URL →
      (truthyOpt resp.url = none ∨ truthyOpt resp.url = some current_url) →
      interpretOutcome resp current_url counts = .proceed current_url) ∧
    (¬ getCount counts current_url < MAX_ATTEMPTS_PER_URL →
      ∀ next_url, truthyOpt resp.url = some next_url →
        interpretOutcome resp current_url counts = .proceed next_url) ∧
    (¬ getCount counts current_url < MAX_ATTEMPTS_PER_URL →
      truthyOpt resp.url = none →
      interpretOutcome resp current_url counts = .breakLoop) ∧
    (∀ deadline max_iterations env st st',
      runPass deadline max_iterations env st = .next st' →
      getCount st'.url_attempt_counts st.current_url =
        getCount st.url_attempt_counts st.current_url + 1) := by
  refine ⟨?_, ?_, ?_, ?_, ?_⟩
  · intro next_url hu hne
    simp [interpretOutcome, h, hu, hne]
  · intro hlt hu
    rcases hu with hu | hu
    · simp [interpretOutcome, h, hu, hlt]
    · simp [interpretOutcome, h, hu, hlt]
  · intro hge next_url hu
    by_cases hne : next_url = current_url
    · subst hne
      simp [interpretOutcome, h, hu, hge]
    · simp [interpretOutcome, h, hu, hne]
  · intro hge hu
    simp [interpretOutcome, h, hu, hge]
  · intro deadline max_iterations env st st' hrun
    rw [(runPass_next_inv hrun).1, getCount_setCount_self]

/-- Witness for `incorrect_outcome_policy`: a wrong answer with a fresh
next-location advances to it. -/
theorem incorrect_outcome_policy_witness :
    interpretOutcome ⟨false, some "wrong", some "u2"⟩ "u1" [("u1", 1)] =
      .proceed "u2" :=
  (incorrect_outcome_policy ⟨false, some "wrong", some "u2"⟩ "u1" [("u1", 1)]
    rfl).1 "u2" (by decide) (by decide)

/-! ### C3 theorems -/

/-- A body environment that raises nowhere, used by counterexamples. -/
def quietIterEnv : IterEnv :=
  { deadlineReached := false
    agent := .ok { code := none, final_answer := .pyNone }
    execResult :=
      { success := true, result := .pyNone, stdout := "", stderr := "", error := none } }

/-- C3, counterexample: content extraction yielding nothing (`if not
extraction: break`, agent_loop.py lines 67-69) stops the whole session —
it is not treated as RETRY_SAME on the same location, contrary to the
claim. Concretely, a pass whose extraction oracle returns `None` produces
`break`, not a `continue` on `"u1"`. -/
theorem extraction_failure_stops_counterexample :
    bodyRun
      { extraction := none
        analysis := .ok { question := "q", submission_link := some "http://s", task_type := "t" }
        iters := fun _ => quietIterEnv
        submission := .connectionError "unused" } "u1" [] 2 = .breakLoop ∧
    BodyResult.breakLoop ≠ BodyResult.proceed "u1" := by
  exact ⟨rfl, by decide⟩

/-- C3, amended: no exception ever escapes one attempt (`bodyRun` is a
total function: the `try` block of lines 62-232 catches everything), and
an analysis failure (`call_analyzer_llm` raising) or an uncaught exception
in steps 4-6 (the agent-LLM call raising) is caught by the `except` at
line 228 and treated as RETRY_SAME on the same location; however content
extraction yielding nothing stops the whole session (`break` at line 69)
instead of retrying it. -/
theorem attempt_failure_policy (env : BodyEnv) (current_url : String)
    (counts : CountMap) (max_iterations : Nat)
    (hx : env.extraction.isSome = true) :
    (∀ msg, env.analysis = .error msg →
      bodyRun env current_url counts max_iterations = .proceed current_url) ∧
    (∀ analysis msg, env.analysis = .ok analysis →
      agentLoop env.iters max_iterations = .raised msg →
      bodyRun env current_url counts max_iterations = .proceed current_url) ∧
    (∀ env' : BodyEnv, env'.extraction = none →
      bodyRun env' current_url counts max_iterations = .breakLoop) := by
  obtain ⟨x, hxs⟩ := Option.isSome_iff_exists.mp hx
  refine ⟨?_, ?_, ?_⟩
  · intro msg hmsg
    simp [bodyRun, hxs, hmsg]
  · intro analysis msg hok hraise
    simp [bodyRun, hxs, hok, hraise]
  · intro env' hnone
    simp [bodyRun, hnone]

/-- Witness for `attempt_failure_policy`: an analyzer failure on a
concrete environment retries the same location. -/
theorem attempt_failure_policy_witness :
    bodyRun
      { extraction := some { page_text := "p", links := [], tables := [], question := "q" }
        analysis := .error "analyzer transport failure"
        iters := fun _ => quietIterEnv
        submission := .connectionError "unused" } "u1" [] 2 = .proceed "u1" :=
  (attempt_failure_policy
    { extraction := some { page_text := "p", links := [], tables := [], question := "q" }
      analysis := .error "analyzer transport failure"
      iters := fun _ => quietIterEnv
      submission := .connectionError "unused" } "u1" [] 2 rfl).1
    "analyzer transport failure" rfl

/-! ### C7 theorem -/

/-- The reasoning-collaborator stub hypothesis of the claim: the LLM call
succeeds and returns truthy code with no final answer. -/
def alwaysCodeNoFinal (env : IterEnv) : Bool :=
  match env.agent with
  | .ok r => decide (r.final_answer = PyVal.pyNone) && (truthyOpt r.code).isSome
  | .error _ => false

/-- The execution never yields a successful non-null result value. -/
def noUsableResult (env : IterEnv) : Bool :=
  !(env.execResult.success && !decide (env.execResult.result = PyVal.pyNone))

/-- If every listed iteration's collaborator offers code without a final
answer and no execution yields a usable result, the loop runs through
every listed iteration, appending one record each. -/
lemma agentLoopGo_exhaust (envs : Nat → IterEnv) :
    ∀ idxs history,
      (∀ i ∈ idxs, (envs i).deadlineReached = false) →
      (∀ i ∈ idxs, alwaysCodeNoFinal (envs i) = true) →
      (∀ i ∈ idxs, noUsableResult (envs i) = true) →
      ∃ hist', agentLoopGo envs idxs history = .done .pyNone hist' ∧
        hist'.length = history.length + idxs.length := by
  intro idxs
  induction idxs with
  | nil =>
    intro history _ _ _
    exact ⟨history, rfl, by simp⟩
  | cons iteration rest ih =>
    intro history hd hc hn
    have hdl := hd iteration (by simp)
    have hcode := hc iteration (by simp)
    have hexec := hn iteration (by simp)
    cases hagent : (envs iteration).agent with
    | error msg =>
      rw [alwaysCodeNoFinal, hagent] at hcode
      exact absurd hcode (by simp)
    | ok r =>
      rw [alwaysCodeNoFinal, hagent] at hcode
      simp only [Bool.and_eq_true, decide_eq_true_eq, Option.isSome_iff_exists] at hcode
      obtain ⟨hfin, c, hcd⟩ := hcode
      rw [noUsableResult] at hexec
      have hnores : ¬((envs iteration).execResult.success = true ∧
          (envs iteration).execResult.result ≠ PyVal.pyNone) := by
        intro ⟨hs, hr⟩
        rw [hs] at hexec
        simp at hexec
        exact hr hexec
      obtain ⟨hist', hrun, hlen⟩ :=
        ih (history ++ [⟨iteration, c, (envs iteration).execResult⟩])
          (fun i hi => hd i (by simp [hi])) (fun i hi => hc i (by simp [hi]))
          (fun i hi => hn i (by simp [hi]))
      refine ⟨hist', ?_, by simp at hlen ⊢; omega⟩
      rw [agentLoopGo]
      simp only [hdl, hagent, hfin, hcd]
      simp only [hnores, if_false]
      simpa using hrun

/-- C7: when the reasoning collaborator returns a code string on every
iteration and never a final answer, and no execution yields a successful
non-null result, the iteration engine performs exactly `N` executions
(`N` = the iteration cap, default 2), appends one iteration record per
execution, and produces no answer; conversely (single-step facts), a
non-null `final_answer` stops the loop at once with that answer and no
record appended, and a successful execution with a non-null result stops
it with that value after appending its record. -/
theorem iteration_cap_behavior (envs : Nat → IterEnv) (N : Nat)
    (h1 : ∀ i, i ≤ N → (envs i).deadlineReached = false)
    (h2 : ∀ i, i ≤ N → alwaysCodeNoFinal (envs i) = true)
    (h3 : ∀ i, i ≤ N → noUsableResult (envs i) = true) :
    ((agentLoop envs N).isRaised = false ∧
     (agentLoop envs N).answer = PyVal.pyNone ∧
     (agentLoop envs N).history.length = N) ∧
    (∀ iteration rest history resp,
      (envs iteration).deadlineReached = false →
      (envs iteration).agent = .ok resp → resp.final_answer ≠ .pyNone →
      agentLoopGo envs (iteration :: rest) history =
        .done resp.final_answer history) ∧
    (∀ iteration rest history resp c,
      (envs iteration).deadlineReached = false →
      (envs iteration).agent = .ok resp → resp.final_answer = .pyNone →
      truthyOpt resp.code = some c →
      (envs iteration).execResult.success = true →
      (envs iteration).execResult.result ≠ .pyNone →
      agentLoopGo envs (iteration :: rest) history =
        .done (envs iteration).execResult.result
          (history ++ [⟨iteration, c, (envs iteration).execResult⟩])) := by
  refine ⟨?_, ?_, ?_⟩
  · have hmem : ∀ i ∈ List.range' 1 N, i ≤ N := by
      intro i hi
      have := List.mem_range'_1.mp hi
      omega
    obtain ⟨hist', hrun, hlen⟩ :=
      agentLoopGo_exhaust envs (List.range' 1 N) []
        (fun i hi => h1 i (hmem i hi)) (fun i hi => h2 i (hmem i hi))
        (fun i hi => h3 i (hmem i hi))
    rw [agentLoop, hrun]
    refine ⟨rfl, rfl, ?_⟩
    simpa using hlen
  · intro iteration rest history resp hdl hok hfin
    rw [agentLoopGo]
    simp [hdl, hok, hfin]
  · intro iteration rest history resp c hdl hok hfin hc hs hr
    rw [agentLoopGo]
    simp only [hdl, hok, hfin, hc]
    simp [hs, hr]

/-- A collaborator stub that always asks for more code whose execution
fails, for the witness below. -/
def stubIterEnv : IterEnv :=
  { deadlineReached := false
    agent := .ok { code := some "x = compute()", final_answer := .pyNone }
    execResult :=
      { success := false, result := .pyNone, stdout := "", stderr := ""
        error := some "NameError" } }

/-- Witness for `iteration_cap_behavior` with a cap of 2: exactly two
records, no answer. -/
theorem iteration_cap_behavior_witness :
    (agentLoop (fun _ => stubIterEnv) 2).answer = PyVal.pyNone ∧
    (agentLoop (fun _ => stubIterEnv) 2).history.length = 2 := by
  have h := (iteration_cap_behavior (fun _ => stubIterEnv) 2
    (by intro i _; rfl) (by intro i _; rfl) (by intro i _; rfl)).1
  exact ⟨h.2.1, h.2.2⟩

/-! ### C2: session-wide attempt bounds -/

def countOcc (u : String) : List String → Nat
  | [] => 0
  | s :: rest => (if s = u then 1 else 0) + countOcc u rest

lemma countOcc_append (u : String) (l₁ l₂ : List String) :
    countOcc u (l₁ ++ l₂) = countOcc u l₁ + countOcc u l₂ := by
  induction l₁ with
  | nil => simp [countOcc]
  | cons s rest ih => simp [countOcc, ih]; omega

def Inv (st : LoopState) : Prop :=
  st.visited_urls.length ≤ st.total_attempts ∧
  st.visited_urls.length ≤ MAX_TOTAL_ATTEMPTS ∧
  ∀ u, countOcc u st.visited_urls ≤ getCount st.url_attempt_counts u ∧
       countOcc u st.visited_urls ≤ MAX_ATTEMPTS_PER_URL

lemma counts_bump_ge (st : LoopState) (u : String) :
    getCount st.url_attempt_counts u ≤
      getCount (setCount st.url_attempt_counts st.current_url
        (getCount st.url_attempt_counts st.current_url + 1)) u := by
  by_cases hu : u = st.current_url
  · subst hu; rw [getCount_setCount_self]; omega
  · rw [getCount_setCount_ne _ _ _ _ hu]

lemma runPass_inv {d m : Nat} {env : PassEnv} {st : LoopState} (hinv : Inv st) :
    Inv (passState (runPass d m env st)) := by
  obtain ⟨hlt, hlm, hcnt⟩ := hinv
  by_cases h1 : MAX_TOTAL_ATTEMPTS < st.total_attempts + 1
  · simp only [runPass, if_pos h1, passState]
    exact ⟨by simpa using Nat.le_succ_of_le hlt, hlm, hcnt⟩
  · by_cases h2 : MAX_ATTEMPTS_PER_URL < getCount st.url_attempt_counts st.current_url + 1
    · simp only [runPass, if_neg h1, if_pos h2, passState]
      refine ⟨by simpa using Nat.le_succ_of_le hlt, hlm, fun u => ?_⟩
      exact ⟨le_trans (hcnt u).1 (counts_bump_ge st u), (hcnt u).2⟩
    · by_cases h3 : d < env.nowAtCheck + 10
      · simp only [runPass, if_neg h1, if_neg h2, if_pos h3, passState]
        refine ⟨by simpa using Nat.le_succ_of_le hlt, hlm, fun u => ?_⟩
        exact ⟨le_trans (hcnt u).1 (counts_bump_ge st u), (hcnt u).2⟩
      · have key : ∀ u, countOcc u (st.visited_urls ++ [st.current_url]) ≤
            getCount (setCount st.url_attempt_counts st.current_url
              (getCount st.url_attempt_counts st.current_url + 1)) u ∧
            countOcc u (st.visited_urls ++ [st.current_url]) ≤ MAX_ATTEMPTS_PER_URL := by
          intro u
          rw [countOcc_append]
          by_cases hu : u = st.current_url
          · subst hu
            rw [getCount_setCount_self]
            have := (hcnt st.current_url).1
            constructor
            · simp [countOcc]; omega
            · simp [countOcc]; omega
          · rw [getCount_setCount_ne _ _ _ _ hu]
            have h4 := hcnt u
            constructor
            · simp [countOcc, Ne.symm hu]; omega
            · simp [countOcc, Ne.symm hu]; omega
        have hlen : (st.visited_urls ++ [st.current_url]).length ≤ st.total_attempts + 1 := by
          simp; omega
        have hlen30 : (st.visited_urls ++ [st.current_url]).length ≤ MAX_TOTAL_ATTEMPTS := by
          have : st.total_attempts + 1 ≤ MAX_TOTAL_ATTEMPTS := by omega
          simp at hlen ⊢
          omega
        cases hb : bodyRun env.body st.current_url
            (setCount st.url_attempt_counts st.current_url
              (getCount st.url_attempt_counts st.current_url + 1)) m with
        | breakLoop =>
          simp only [runPass, if_neg h1, if_neg h2, if_neg h3, hb, passState]
          exact ⟨hlen, hlen30, key⟩
        | proceed url' =>
          simp only [runPass, if_neg h1, if_neg h2, if_neg h3, hb, passState]
          exact ⟨hlen, hlen30, key⟩


lemma runPass_total_succ (d m : Nat) (env : PassEnv) (st : LoopState) :
    (passState (runPass d m env st)).total_attempts = st.total_attempts + 1 := by
  by_cases h1 : MAX_TOTAL_ATTEMPTS < st.total_attempts + 1
  · simp [runPass, h1, passState]
  · by_cases h2 : MAX_ATTEMPTS_PER_URL < getCount st.url_attempt_counts st.current_url + 1
    · simp [runPass, h1, h2, passState]
    · by_cases h3 : d < env.nowAtCheck + 10
      · simp [runPass, h1, h2, h3, passState]
      · cases hb : bodyRun env.body st.current_url
            (setCount st.url_attempt_counts st.current_url
              (getCount st.url_attempt_counts st.current_url + 1)) m with
        | breakLoop => simp [runPass, h1, h2, h3, hb, passState]
        | proceed url' => simp [runPass, h1, h2, h3, hb, passState]

lemma runLoop_isSome (d m : Nat) (envs : Nat → PassEnv) :
    ∀ fuel k st, 1 ≤ fuel → MAX_TOTAL_ATTEMPTS + 1 ≤ st.total_attempts + fuel →
      (runLoop d m envs fuel k st).isSome = true := by
  intro fuel
  induction fuel with
  | zero => intro k st h; omega
  | succ f ih =>
    intro k st _ htot
    rw [runLoop]
    by_cases hcond : st.current_url ≠ "" ∧ (envs k).nowAtTop < d
    · rw [if_pos hcond]
      cases hp : runPass d m (envs k) st with
      | stopped why st' => simp
      | next st' =>
        have hle := (runPass_next_inv hp).2.2.2.1
        have htot' : st'.total_attempts = st.total_attempts + 1 :=
          (runPass_next_inv hp).2.1
        have hf : 1 ≤ f := by omega
        exact ih (k + 1) st' hf (by omega)
    · rw [if_neg hcond]
      simp
  -- note: `intro k st h; omega` in zero case: h : 1 ≤ 0 gives contradiction

lemma runLoop_inv (d m : Nat) (envs : Nat → PassEnv) :
    ∀ fuel k st why final, Inv st →
      runLoop d m envs fuel k st = some (why, final) → Inv final := by
  intro fuel
  induction fuel with
  | zero => intro k st why final _ h; simp [runLoop] at h
  | succ f ih =>
    intro k st why final hinv h
    rw [runLoop] at h
    by_cases hcond : st.current_url ≠ "" ∧ (envs k).nowAtTop < d
    · rw [if_pos hcond] at h
      cases hp : runPass d m (envs k) st with
      | stopped why' st' =>
        rw [hp] at h
        simp only [Option.some.injEq, Prod.mk.injEq] at h
        obtain ⟨h1, h2⟩ := h
        have := @runPass_inv d m (envs k) st hinv
        rw [hp] at this
        rw [← h2]
        exact this
      | next st' =>
        rw [hp] at h
        have hinv' := @runPass_inv d m (envs k) st hinv
        rw [hp] at hinv'
        exact ih (k + 1) st' why final hinv' h
    · rw [if_neg hcond] at h
      simp only [Option.some.injEq, Prod.mk.injEq] at h
      rw [← h.2]
      exact hinv

lemma runLoop_total_mono (d m : Nat) (envs : Nat → PassEnv) :
    ∀ fuel k st why final,
      runLoop d m envs fuel k st = some (why, final) →
      st.total_attempts ≤ final.total_attempts := by
  intro fuel
  induction fuel with
  | zero => intro k st why final h; simp [runLoop] at h
  | succ f ih =>
    intro k st why final h
    rw [runLoop] at h
    by_cases hcond : st.current_url ≠ "" ∧ (envs k).nowAtTop < d
    · rw [if_pos hcond] at h
      cases hp : runPass d m (envs k) st with
      | stopped why' st' =>
        rw [hp] at h
        simp only [Option.some.injEq, Prod.mk.injEq] at h
        have := runPass_total_succ d m (envs k) st
        rw [hp] at this
        simp [passState] at this
        rw [← h.2]
        omega
      | next st' =>
        rw [hp] at h
        have h1 := ih (k + 1) st' why final h
        have := runPass_total_succ d m (envs k) st
        rw [hp] at this
        simp [passState] at this
        omega
    · rw [if_neg hcond] at h
      simp only [Option.some.injEq, Prod.mk.injEq] at h
      rw [← h.2]

lemma runLoop_fuel_mono (d m : Nat) (envs : Nat → PassEnv) :
    ∀ fuel k st r, runLoop d m envs fuel k st = some r →
      ∀ extra, runLoop d m envs (fuel + extra) k st = some r := by
  intro fuel
  induction fuel with
  | zero => intro k st r h; simp [runLoop] at h
  | succ f ih =>
    intro k st r h extra
    rw [runLoop] at h
    have : f + 1 + extra = (f + extra) + 1 := by omega
    rw [this, runLoop]
    by_cases hcond : st.current_url ≠ "" ∧ (envs k).nowAtTop < d
    · rw [if_pos hcond] at h ⊢
      cases hp : runPass d m (envs k) st with
      | stopped why' st' =>
        rw [hp] at h
        simpa using h
      | next st' =>
        rw [hp] at h
        have h' : runLoop d m envs f (k + 1) st' = some r := by simpa using h
        simpa using ih (k + 1) st' r h' extra
    · rw [if_neg hcond] at h ⊢
      exact h


lemma Inv_init (quiz_url : String) : Inv (initState quiz_url) := by
  refine ⟨by simp [initState], by simp [initState], fun u => ?_⟩
  simp [initState, countOcc]

theorem session_attempts_bounded (deadline max_iterations : Nat)
    (envs : Nat → PassEnv) (quiz_url : String) :
    (runLoop deadline max_iterations envs (MAX_TOTAL_ATTEMPTS + 1) 0
        (initState quiz_url)).isSome = true ∧
    (loopFinal deadline max_iterations envs (MAX_TOTAL_ATTEMPTS + 1) 0
        (initState quiz_url)).visited_urls.length ≤ MAX_TOTAL_ATTEMPTS ∧
    (∀ u, countOcc u (loopFinal deadline max_iterations envs (MAX_TOTAL_ATTEMPTS + 1) 0
        (initState quiz_url)).visited_urls ≤ MAX_ATTEMPTS_PER_URL) ∧
    (∀ env st, st.total_attempts ≤
      (passState (runPass deadline max_iterations env st)).total_attempts) ∧
    (∀ st why final fuel k, runLoop deadline max_iterations envs fuel k st = some (why, final) →
      st.total_attempts ≤ final.total_attempts) ∧
    (∀ extra, runLoop deadline max_iterations envs (MAX_TOTAL_ATTEMPTS + 1 + extra) 0
        (initState quiz_url) =
      runLoop deadline max_iterations envs (MAX_TOTAL_ATTEMPTS + 1) 0 (initState quiz_url)) := by
  have hsome := runLoop_isSome deadline max_iterations envs (MAX_TOTAL_ATTEMPTS + 1) 0
    (initState quiz_url) (by omega) (by simp [initState])
  obtain ⟨⟨why, final⟩, hr⟩ := Option.isSome_iff_exists.mp hsome
  have hfin : loopFinal deadline max_iterations envs (MAX_TOTAL_ATTEMPTS + 1) 0
      (initState quiz_url) = final := by
    rw [loopFinal, hr]
    rfl
  have hinv := runLoop_inv deadline max_iterations envs (MAX_TOTAL_ATTEMPTS + 1) 0
    (initState quiz_url) why final (Inv_init quiz_url) hr
  refine ⟨hsome, ?_, ?_, ?_, ?_, ?_⟩
  · rw [hfin]; exact hinv.2.1
  · intro u; rw [hfin]; exact (hinv.2.2 u).2
  · intro env st
    rw [runPass_total_succ]
    omega
  · intro st why' final' fuel k h
    exact runLoop_total_mono deadline max_iterations envs fuel k st why' final' h
  · intro extra
    rw [runLoop_fuel_mono deadline max_iterations envs (MAX_TOTAL_ATTEMPTS + 1) 0
      (initState quiz_url) (why, final) hr extra, hr]

def idlePassEnv : PassEnv :=
  { nowAtTop := 0, nowAtCheck := 0,
    body :=
      { extraction := none
        analysis := .error "unused"
        iters := fun _ => quietIterEnv
        submission := .connectionError "unused" } }

theorem session_attempts_bounded_witness :
    (runLoop 1000 2 (fun _ => idlePassEnv) (MAX_TOTAL_ATTEMPTS + 1) 0
        (initState "https://quiz.example/q1")).isSome = true :=
  (session_attempts_bounded 1000 2 (fun _ => idlePassEnv) "https://quiz.example/q1").1

/-! ### C10: counter increments versus the guards -/

/-- A pass whose lifetime ends at the per-URL ceiling check incremented
both counters first. -/
lemma runPass_perUrl_inv {d m : Nat} {env : PassEnv} {st st' : LoopState}
    (h : runPass d m env st = .stopped .perUrlLimit st') :
    st'.total_attempts = st.total_attempts + 1 ∧
    getCount st'.url_attempt_counts st.current_url =
      getCount st.url_attempt_counts st.current_url + 1 ∧
    st'.visited_urls = st.visited_urls := by
  by_cases h1 : MAX_TOTAL_ATTEMPTS < st.total_attempts + 1
  · simp [runPass, h1] at h
  · by_cases h2 : MAX_ATTEMPTS_PER_URL < getCount st.url_attempt_counts st.current_url + 1
    · simp [runPass, h1, h2] at h
      rw [← h]
      exact ⟨rfl, getCount_setCount_self _ _ _, rfl⟩
    · by_cases h3 : d < env.nowAtCheck + 10
      · simp [runPass, h1, h2, h3] at h
      · cases hb : bodyRun env.body st.current_url
            (setCount st.url_attempt_counts st.current_url
              (getCount st.url_attempt_counts st.current_url + 1)) m with
        | breakLoop => simp [runPass, h1, h2, h3, hb] at h
        | proceed url' => simp [runPass, h1, h2, h3, hb] at h

/-- A pass whose lifetime ends at the low-time-remaining guard incremented
both counters first. -/
lemma runPass_deadlineLow_inv {d m : Nat} {env : PassEnv} {st st' : LoopState}
    (h : runPass d m env st = .stopped .deadlineLow st') :
    st'.total_attempts = st.total_attempts + 1 ∧
    getCount st'.url_attempt_counts st.current_url =
      getCount st.url_attempt_counts st.current_url + 1 ∧
    st'.visited_urls = st.visited_urls := by
  by_cases h1 : MAX_TOTAL_ATTEMPTS < st.total_attempts + 1
  · simp [runPass, h1] at h
  · by_cases h2 : MAX_ATTEMPTS_PER_URL < getCount st.url_attempt_counts st.current_url + 1
    · simp [runPass, h1, h2] at h
    · by_cases h3 : d < env.nowAtCheck + 10
      · simp [runPass, h1, h2, h3] at h
        rw [← h]
        exact ⟨rfl, getCount_setCount_self _ _ _, rfl⟩
      · cases hb : bodyRun env.body st.current_url
            (setCount st.url_attempt_counts st.current_url
              (getCount st.url_attempt_counts st.current_url + 1)) m with
        | breakLoop => simp [runPass, h1, h2, h3, hb] at h
        | proceed url' => simp [runPass, h1, h2, h3, hb] at h

/-- A pass cut off at the global ceiling check left the per-URL counter
map untouched. -/
lemma runPass_global_inv {d m : Nat} {env : PassEnv} {st st' : LoopState}
    (h : runPass d m env st = .stopped .globalLimit st') :
    st'.total_attempts = st.total_attempts + 1 ∧
    st'.url_attempt_counts = st.url_attempt_counts ∧
    st'.visited_urls = st.visited_urls := by
  by_cases h1 : MAX_TOTAL_ATTEMPTS < st.total_attempts + 1
  · simp [runPass, h1] at h
    rw [← h]
    exact ⟨rfl, rfl, rfl⟩
  · by_cases h2 : MAX_ATTEMPTS_PER_URL < getCount st.url_attempt_counts st.current_url + 1
    · simp [runPass, h1, h2] at h
    · by_cases h3 : d < env.nowAtCheck + 10
      · simp [runPass, h1, h2, h3] at h
      · cases hb : bodyRun env.body st.current_url
            (setCount st.url_attempt_counts st.current_url
              (getCount st.url_attempt_counts st.current_url + 1)) m with
        | breakLoop => simp [runPass, h1, h2, h3, hb] at h
        | proceed url' => simp [runPass, h1, h2, h3, hb] at h

/-- An iteration environment in which the collaborator immediately yields
a final answer, so a pass reaches submission without executing code. -/
def progressIterEnv : IterEnv :=
  { deadlineReached := false
    agent := .ok { code := none, final_answer := .int 1 }
    execResult :=
      { success := true, result := .pyNone, stdout := "", stderr := "", error := none } }

/-- A server that always answers `correct=false` with a fresh
next-location `u2, u3, ...` on pass `k`, forcing the session through 30
distinct locations until the 31st pass trips the global ceiling. -/
def progressEnvs : Nat → PassEnv := fun k =>
  { nowAtTop := 0, nowAtCheck := 0,
    body :=
      { extraction := some { page_text := "p", links := [], tables := [], question := "q" }
        analysis := .ok { question := "q", submission_link := some "http://s", task_type := "t" }
        iters := fun _ => progressIterEnv
        submission := .response 200 (.parsed
          { correct := false, reason := some "wrong", url := some ("u" ++ toString (k + 2)) }) } }

/-- C10, counterexample: in the run driven by `progressEnvs` the 31st pass
(current location `"u31"`) is cut off by the global ceiling check, yet the
per-location counter for `"u31"` is still 0 — a pass cut off by a ceiling
check has *not* always consumed a slot from both counters, refuting the
claim for the global-ceiling cutoff. (The reported total of 31 exceeding
the 30 processed attempts is visible here too.) -/
theorem counters_at_global_cutoff_counterexample :
    loopStop 1000 2 progressEnvs 31 0 (initState "u1") = some .globalLimit ∧
    (loopFinal 1000 2 progressEnvs 31 0 (initState "u1")).current_url = "u31" ∧
    (loopFinal 1000 2 progressEnvs 31 0 (initState "u1")).total_attempts = 31 ∧
    getCount (loopFinal 1000 2 progressEnvs 31 0
      (initState "u1")).url_attempt_counts "u31" = 0 ∧
    (loopFinal 1000 2 progressEnvs 31 0 (initState "u1")).visited_urls.length = 30 := by
  exact ⟨rfl, rfl, rfl, rfl, rfl⟩

/-- C10, amended: the global counter is incremented before the global
ceiling check, and the current location's counter after that check but
before the deadline guard and any remote work; hence a pass cut off by the
per-location ceiling or by the less-than-10-seconds guard has consumed a
slot from both counters, while a pass cut off by the global ceiling has
consumed only a global slot; and the reported total attempt count can
exceed the number of attempts that reached processing (31 vs 30 in the
`progressEnvs` run). -/
theorem counters_at_cutoff (d m : Nat) (env : PassEnv) (st st' : LoopState) :
    (runPass d m env st = .stopped .perUrlLimit st' →
      st'.total_attempts = st.total_attempts + 1 ∧
      getCount st'.url_attempt_counts st.current_url =
        getCount st.url_attempt_counts st.current_url + 1) ∧
    (runPass d m env st = .stopped .deadlineLow st' →
      st'.total_attempts = st.total_attempts + 1 ∧
      getCount st'.url_attempt_counts st.current_url =
        getCount st.url_attempt_counts st.current_url + 1) ∧
    (runPass d m env st = .stopped .globalLimit st' →
      st'.total_attempts = st.total_attempts + 1 ∧
      st'.url_attempt_counts = st.url_attempt_counts) ∧
    ((loopFinal 1000 2 progressEnvs 31 0 (initState "u1")).total_attempts = 31 ∧
      (loopFinal 1000 2 progressEnvs 31 0 (initState "u1")).visited_urls.length = 30) := by
  refine ⟨?_, ?_, ?_, rfl, rfl⟩
  · intro h
    exact ⟨(runPass_perUrl_inv h).1, (runPass_perUrl_inv h).2.1⟩
  · intro h
    exact ⟨(runPass_deadlineLow_inv h).1, (runPass_deadlineLow_inv h).2.1⟩
  · intro h
    exact ⟨(runPass_global_inv h).1, (runPass_global_inv h).2.1⟩

/-- Witness for `counters_at_cutoff`: a pass on a location whose budget is
already exhausted stops at the per-URL check with both counters bumped. -/
theorem counters_at_cutoff_witness :
    (runPass 1000 2 idlePassEnv
        { current_url := "u1", total_attempts := 5,
          url_attempt_counts := [("u1", 2)], visited_urls := ["u1", "u1"] } =
      .stopped .perUrlLimit
        { current_url := "u1", total_attempts := 6,
          url_attempt_counts := [("u1", 3)], visited_urls := ["u1", "u1"] }) ∧
    ({ current_url := "u1", total_attempts := 6,
       url_attempt_counts := [("u1", 3)],
       visited_urls := ["u1", "u1"] : LoopState }).total_attempts = 5 + 1 ∧
    getCount [("u1", 3)] "u1" = getCount [("u1", 2)] "u1" + 1 := by
  refine ⟨rfl, ?_, ?_⟩
  · exact ((counters_at_cutoff 1000 2 idlePassEnv
      { current_url := "u1", total_attempts := 5,
        url_attempt_counts := [("u1", 2)], visited_urls := ["u1", "u1"] }
      { current_url := "u1", total_attempts := 6,
        url_attempt_counts := [("u1", 3)], visited_urls := ["u1", "u1"] }).1 rfl).1
  · exact ((counters_at_cutoff 1000 2 idlePassEnv
      { current_url := "u1", total_attempts := 5,
        url_attempt_counts := [("u1", 2)], visited_urls := ["u1", "u1"] }
      { current_url := "u1", total_attempts := 6,
        url_attempt_counts := [("u1", 3)], visited_urls := ["u1", "u1"] }).1 rfl).2

/-! ### C8: the /quiz service boundary (app/main.py lines 28-64) -/

/-- The request model (main.py lines 19-22). -/
structure QuizRequest where
  email : String
  secret : String
  url : String

/-- Observable milestones of one handler invocation, in the order the
handler produces them. -/
inductive ServiceEvent where
  | sessionFinished (final : LoopState)
  | responseSent (status : String) (message : String)
  deriving Repr

def ServiceEvent.isResponseSent : ServiceEvent → Bool
  | .responseSent _ _ => true
  | .sessionFinished _ => false

/-- main.py lines 28-64: `handle_quiz`. The deadline is request receipt
plus 3 minutes (line 34). The secret and email checks compare the request
values with the `os.getenv` values, which may be unset (`None`); a
mismatch raises 403 before any orchestration. Crucially the handler
`await`s `run_quiz_agent` to completion (line 50) and only afterwards
builds the `QuizResponse(status="success", message="Quiz processing
initiated")` (lines 57-60): in the returned event trace the session-finished
event precedes the response event. -/
def handle_quiz (EXPECTED_SECRET EXPECTED_EMAIL : Option String)
    (request : QuizRequest) (start_time max_iterations fuel : Nat)
    (envs : Nat → PassEnv) :
    List ServiceEvent × Except Nat (String × String) :=
  let deadline := start_time + 180
  if some request.secret ≠ EXPECTED_SECRET then
    ([], .error 403)
  else if some request.email ≠ EXPECTED_EMAIL then
    ([], .error 403)
  else
    let final := loopFinal deadline max_iterations envs fuel 0 (initState request.url)
    ([.sessionFinished final,
      .responseSent "success" "Quiz processing initiated"],
     .ok ("success", "Quiz processing initiated"))

/-- C8, evaluated at a concrete failing input: for a valid authenticated
request, the handler's event trace is `[sessionFinished, responseSent]` —
the success acknowledgment is produced only *after* the session has run to
completion, because the handler `await`s the orchestrator instead of
launching it in the background. This contradicts the claim that the
acknowledgment is returned before the session finishes. (The response
payload itself carries no session outcome, only the fixed strings.) -/
theorem handle_quiz_acknowledges_after_session :
    ((handle_quiz (some "s3cret") (some "user@example.com")
        { email := "user@example.com", secret := "s3cret",
          url := "https://quiz.example/q1" }
        0 2 31 (fun _ => idlePassEnv)).1.map ServiceEvent.isResponseSent) =
      [false, true] ∧
    (handle_quiz (some "s3cret") (some "user@example.com")
        { email := "user@example.com", secret := "s3cret",
          url := "https://quiz.example/q1" }
        0 2 31 (fun _ => idlePassEnv)).2 =
      .ok ("success", "Quiz processing initiated") := by
  exact ⟨rfl, rfl⟩

end QuizSolver
